import Mathlib

/-!
Verification of the django-asset-management repository: a shallow embedding
of its data model (assets/models.py), form validation (assets/forms.py) and
request handlers (assets/views.py), followed by theorems settling the
behavioural claims about the application.

Conventions of the embedding:
  * Django model rows become Lean structures; the database becomes a `DB`
    structure holding lists of rows plus primary-key counters.
  * `DecimalField` values are embedded as exact integers at a fixed scale
    (money in hundredths, coordinates at scale 10^7), `DateField` values as
    day ordinals (`Int`).
  * Binary file content is a `List Nat` of byte values.
  * Each view becomes a function from a request (user id, url pk, submitted
    data) and the current `DB` to a `Response` plus the successor `DB`.
  * Python truthiness on `Decimal`/`None` is embedded explicitly
    (`decimalFalsy`): `None` and the zero decimal are falsy.
-/

/-- The eight fixed asset categories (`Asset.CATEGORY_CHOICES` in models.py). -/
inductive Category where
  | mutual_funds
  | stocks
  | lands
  | flats
  | fixed_deposit
  | medical_insurance
  | life_insurance
  | gold
deriving DecidableEq, Repr

/-- The database key string of a category (first component of each
`CATEGORY_CHOICES` pair). -/
def Category.key : Category → String
  | .mutual_funds => "mutual_funds"
  | .stocks => "stocks"
  | .lands => "lands"
  | .flats => "flats"
  | .fixed_deposit => "fixed_deposit"
  | .medical_insurance => "medical_insurance"
  | .life_insurance => "life_insurance"
  | .gold => "gold"

/-- The display label of a category (second component of each
`CATEGORY_CHOICES` pair, used via `category_labels.get`). -/
def Category.label : Category → String
  | .mutual_funds => "Mutual Funds"
  | .stocks => "Stocks"
  | .lands => "Lands"
  | .flats => "Flats"
  | .fixed_deposit => "Fixed Deposit"
  | .medical_insurance => "Medical Insurance"
  | .life_insurance => "Life Insurance"
  | .gold => "Gold"

/-- The fixed category to display-color mapping (`colors` dict in
`DashboardView.get_context_data` and `chart_data_api`). -/
def Category.color : Category → String
  | .mutual_funds => "#3B82F6"
  | .stocks => "#10B981"
  | .lands => "#8B5CF6"
  | .flats => "#F59E0B"
  | .fixed_deposit => "#EF4444"
  | .medical_insurance => "#EC4899"
  | .life_insurance => "#06B6D4"
  | .gold => "#F97316"

/-- The fixed list of all categories in `CATEGORY_CHOICES` order. -/
def allCategories : List Category :=
  [.mutual_funds, .stocks, .lands, .flats, .fixed_deposit,
   .medical_insurance, .life_insurance, .gold]

/-- One `Asset` row (models.py `class Asset`).  Fields not involved in any
validation rule, aggregate, log snapshot or ownership check (area, gold
weight, units, insurance and FD details, timestamps) are orthogonal to every
claim and are not tracked. `value` is money in hundredths; dates are day
ordinals; coordinates are scaled exact decimals, `none` when NULL. -/
structure Asset where
  id : Nat
  owner : Nat
  name : String
  category : Category
  value : Int
  start_date : Int
  end_date : Option Int
  latitude : Option Int
  longitude : Option Int
deriving DecidableEq, Repr

/-- One `AssetDocument` row (models.py `class AssetDocument`), with the binary
content in-row.  In `create_from_file` every field is populated, and `save`
fills `name` from the filename stem when blank. -/
structure AssetDocumentRow where
  id : Nat
  asset_id : Nat
  file_data : List Nat
  file_name : String
  file_type : String
  file_size : Nat
  name : String
deriving DecidableEq, Repr

/-- The `action` choices of `ActivityLog.ACTION_CHOICES`. -/
inductive LogAction where
  | create
  | update
  | delete
  | view
  | upload
  | download
deriving DecidableEq, Repr

/-- One `ActivityLog` row: the acting user, the action kind, the denormalized
snapshot of the asset name/category key at the time, and free-text details. -/
structure LogEntry where
  user : Option Nat
  action : LogAction
  asset_name : String
  asset_category : String
  details : Option String
deriving DecidableEq, Repr

/-- The relational store: the three asset-app tables plus primary-key
counters for the two tables whose rows the views create by id. -/
structure DB where
  assets : List Asset
  documents : List AssetDocumentRow
  logs : List LogEntry
  nextAssetId : Nat
  nextDocId : Nat
deriving DecidableEq, Repr

/-- The empty database. -/
def DB.empty : DB :=
  { assets := [], documents := [], logs := [], nextAssetId := 1, nextDocId := 1 }

/-- Outcome of a request: a payload, a 404 (`get_object_or_404` miss /
owner-filtered queryset miss), a 403 (`HttpResponseForbidden`), or a form
validation failure re-rendering the form (`ValidationError`). -/
inductive Response (α : Type) where
  | ok (val : α)
  | notFound
  | forbidden
  | invalid (msg : String)
deriving DecidableEq, Repr

/-- Embeds `ActivityLog.log_action`: builds the appended row, snapshotting the
asset's current name and category key (denormalized). -/
def ActivityLog.log_action (user : Nat) (action : LogAction) (asset : Asset)
    (details : Option String) : LogEntry :=
  { user := some user, action := action, asset_name := asset.name,
    asset_category := asset.category.key, details := details }

/-! ### File names, extensions and MIME types -/

/-- An uploaded file as the views see it (`request.FILES`): Django's
`UploadedFile` exposes `name`, full-content `read()` and `size`; `size` is
the byte length of the content. -/
structure UploadedFile where
  name : String
  content : List Nat
deriving DecidableEq, Repr

/-- Embeds `UploadedFile.size`. -/
def UploadedFile.size (f : UploadedFile) : Nat := f.content.length

/-- Index of the last occurrence of `c` in `cs`, if any. -/
def rlastIdx (cs : List Char) (c : Char) : Option Nat :=
  match cs.reverse.findIdx? (fun x => x = c) with
  | none => none
  | some i => some (cs.length - 1 - i)

/-- Embeds `os.path.splitext` (posixpath): splits at the last dot of the final path
component, unless every character of that component before the dot is itself
a dot (so ".bashrc" has no extension).  Returns (root, extension-with-dot). -/
def splitext (p : String) : String × String :=
  let cs := p.toList
  let start := match rlastIdx cs '/' with | none => 0 | some i => i + 1
  match rlastIdx cs '.' with
  | none => (p, "")
  | some d =>
    if start ≤ d ∧ ((cs.drop start).take (d - start)).any (fun ch => ch ≠ '.') then
      (String.mk (cs.take d), String.mk (cs.drop d))
    else (p, "")

/-- Lower-cased characters of a string (`str.lower()` on ASCII names). -/
def pyLower (s : String) : String := String.mk (s.toList.map Char.toLower)

/-- The `mimetypes` standard-library extension table, restricted to the
extensions this application's widgets and validators name (plus a few common
ones); `guess_type` maps a lower-cased extension through this table. -/
def mimeTable : List (String × String) :=
  [(".pdf", "application/pdf"),
   (".jpg", "image/jpeg"),
   (".jpeg", "image/jpeg"),
   (".png", "image/png"),
   (".gif", "image/gif"),
   (".doc", "application/msword"),
   (".docx", "application/vnd.openxmlformats-officedocument.wordprocessingml.document"),
   (".xls", "application/vnd.ms-excel"),
   (".xlsx", "application/vnd.openxmlformats-officedocument.spreadsheetml.sheet"),
   (".txt", "text/plain"),
   (".exe", "application/x-msdownload")]

/-- Embeds `mimetypes.guess_type(name)[0]`: the MIME type inferred from the
filename's extension, `none` when the extension is unknown. -/
def guessType (name : String) : Option String :=
  (mimeTable.find? (fun e => e.1 = pyLower (splitext name).2)).map (fun e => e.2)

/-! ### Configured upload limits

The project settings module (`assetmanager/settings.py`) is not among the
source files; only its uses are (`settings.ALLOWED_DOCUMENT_EXTENSIONS`,
`settings.MAX_DOCUMENT_SIZE` in forms.py). -/

/-- Modelled from the spec: `assetmanager/settings.py` is missing; §4.1/§2 of
the spec describe a fixed extension allow-list and a configured maximum
document size.  The allow-list mirrors the extensions named by the upload
widget's `accept` attribute and `AssetDocument.ALLOWED_EXTENSIONS`, written
with the leading dot that `os.path.splitext` produces, since `clean_files`
compares `splitext` output against it. -/
def ALLOWED_DOCUMENT_EXTENSIONS : List String :=
  [".pdf", ".jpg", ".jpeg", ".png", ".gif", ".doc", ".docx", ".xls", ".xlsx"]

/-- Modelled from the spec: the configured maximum document size in bytes
(`settings.MAX_DOCUMENT_SIZE`); the spec fixes no number, only that it is a
positive constant.  10 MiB, matching the megabyte phrasing of the error
message in `clean_files`. -/
def MAX_DOCUMENT_SIZE : Nat := 10 * 1024 * 1024

/-! ### Form validation (assets/forms.py) -/

/-- The cleaned data of an `AssetForm` submission whose field-level
validation passed: required model fields (`name`, `category`, `value`,
`start_date`) are present, optional ones are `Option`s.  As in `Asset`, the
fields irrelevant to every cross-field rule are not tracked. -/
structure Submission where
  name : String
  category : Category
  value : Int
  start_date : Int
  end_date : Option Int
  latitude : Option Int
  longitude : Option Int
deriving DecidableEq, Repr

/-- Python truthiness of an optional `Decimal`: `None` and the zero decimal
are falsy (`not latitude` in `AssetForm.clean`). -/
def decimalFalsy : Option Int → Bool
  | none => true
  | some v => v = 0

/-- Embeds `AssetForm.clean`: rejects `end_date < start_date` (when both dates are
present; `start_date` always is, being required), then, for category
"lands", rejects when `not latitude or not longitude` — the Python
truthiness test, which fails both for missing and for zero coordinates. -/
def AssetForm.clean (s : Submission) : Except String Submission :=
  if (match s.end_date with
      | some e => decide (e < s.start_date)
      | none => false) then
    Except.error "End date cannot be before start date."
  else if s.category = Category.lands ∧
      (decimalFalsy s.latitude ∨ decimalFalsy s.longitude) then
    Except.error "Latitude and Longitude are required for land assets."
  else
    Except.ok s

/-- A `ValidationError` raised by `AssetDocumentForm.clean_files`, carrying
the offending extension or filename. -/
inductive FileError where
  | badExtension (ext : String)
  | tooLarge (name : String)
deriving DecidableEq, Repr

/-- The check `clean_files` applies to a single file: extension (lower-cased
`splitext` output) must be in the allow-list, size must not exceed the
configured maximum.  Returns the first violated rule, if any. -/
def checkFile (f : UploadedFile) : Option FileError :=
  let ext := pyLower (splitext f.name).2
  if ¬ ALLOWED_DOCUMENT_EXTENSIONS.contains ext then
    some (FileError.badExtension ext)
  else if f.size > MAX_DOCUMENT_SIZE then
    some (FileError.tooLarge f.name)
  else
    none

/-- Embeds `AssetDocumentForm.clean_files`: walks the file list and raises on the
first file violating a rule; when none does, the list passes unchanged. -/
def AssetDocumentForm.clean_files : List UploadedFile → Except FileError (List UploadedFile)
  | files =>
    match files.findSome? checkFile with
    | some e => Except.error e
    | none => Except.ok files

/-! ### Document store (assets/models.py) -/

/-- Embeds `AssetDocument.create_from_file` followed by `save`: reads the full
content, infers the MIME type from the filename (falling back to the generic
binary type when `guess_type` knows none), records the byte length, persists
the row keyed to the owning asset, and — in `save` — defaults the display
`name` to the filename stem when the filename is non-blank. -/
def AssetDocument.create_from_file (db : DB) (asset_id : Nat)
    (f : UploadedFile) : DB :=
  let mime := (guessType f.name).getD "application/octet-stream"
  let row : AssetDocumentRow :=
    { id := db.nextDocId, asset_id := asset_id, file_data := f.content,
      file_name := f.name, file_type := mime, file_size := f.content.length,
      name := if f.name = "" then "" else (splitext f.name).1 }
  { db with documents := db.documents ++ [row], nextDocId := db.nextDocId + 1 }

/-! ### Queryset helpers -/

/-- Embeds `Asset.objects.filter(owner=user)`: the owner-scoped queryset used by the
dashboard, list, detail, update and delete views. -/
def DB.userAssets (db : DB) (u : Nat) : List Asset :=
  db.assets.filter (fun a => decide (a.owner = u))

/-- Embeds `get_object_or_404` against the owner-scoped queryset: the asset with
primary key `pk` among the requesting user's assets, if any. -/
def DB.findOwned (db : DB) (u pk : Nat) : Option Asset :=
  (db.userAssets u).find? (fun a => decide (a.id = pk))

/-! ### Asset CRUD views (assets/views.py) -/

/-- Embeds `AssetDetailView`: resolves `pk` against the owner-filtered queryset
(miss = 404, so another user's asset is never returned), then returns the
asset with its documents and appends one `view` log row. -/
def AssetDetailView.get (db : DB) (u pk : Nat) :
    Response (Asset × List AssetDocumentRow) × DB :=
  match db.findOwned u pk with
  | none => (Response.notFound, db)
  | some a =>
    let docs := db.documents.filter (fun d => decide (d.asset_id = a.id))
    let entry := ActivityLog.log_action u LogAction.view a none
    (Response.ok (a, docs), { db with logs := db.logs ++ [entry] })

/-- The new `Asset` row built by `AssetCreateView` from validated form data
(`form.instance.owner = self.request.user`, pk assigned on save). -/
def Asset.fromSubmission (id owner : Nat) (s : Submission) : Asset :=
  { id := id, owner := owner, name := s.name, category := s.category,
    value := s.value, start_date := s.start_date, end_date := s.end_date,
    latitude := s.latitude, longitude := s.longitude }

/-- The field update a valid `AssetForm` save applies to an existing row
(`pk` and `owner` are not form fields and stay fixed). -/
def applySubmission (a : Asset) (s : Submission) : Asset :=
  { a with
    name := s.name,
    category := s.category,
    value := s.value,
    start_date := s.start_date,
    end_date := s.end_date,
    latitude := s.latitude,
    longitude := s.longitude }

/-- Embeds `AssetCreateView` POST: on form failure nothing is persisted; on success
the asset row is saved, then every file of `request.FILES.getlist('files')`
is stored via `create_from_file` — with no validation and no per-file log
row — and finally one `create` log row is appended. -/
def AssetCreateView.post (db : DB) (u : Nat) (sub : Submission)
    (files : List UploadedFile) : Response Unit × DB :=
  match AssetForm.clean sub with
  | Except.error msg => (Response.invalid msg, db)
  | Except.ok s =>
    let a := Asset.fromSubmission db.nextAssetId u s
    let db1 := { db with assets := db.assets ++ [a],
                         nextAssetId := db.nextAssetId + 1 }
    let db2 := files.foldl
      (fun d f => AssetDocument.create_from_file d a.id f) db1
    let entry := ActivityLog.log_action u LogAction.create a
      (some ("Created asset with value " ++ toString a.value))
    (Response.ok (), { db2 with logs := db2.logs ++ [entry] })

/-- Embeds one iteration of the upload loop in `AssetUpdateView.form_valid`:
store the file via `create_from_file`, then append one `upload` log row
snapshotting the (already updated) asset. -/
def AssetUpdateView.uploadOne (u : Nat) (a2 : Asset) (d : DB)
    (f : UploadedFile) : DB :=
  let d2 := AssetDocument.create_from_file d a2.id f
  let uploadEntry := ActivityLog.log_action u LogAction.upload a2
    (some ("Uploaded document: " ++ f.name))
  { d2 with logs := d2.logs ++ [uploadEntry] }

/-- Embeds `AssetUpdateView` POST: 404 unless the asset is the requester's own; on
form failure nothing is persisted; on success the row is updated, each
submitted file is stored unvalidated and followed by one `upload` log row,
and finally one `update` log row is appended. -/
def AssetUpdateView.post (db : DB) (u pk : Nat) (sub : Submission)
    (files : List UploadedFile) : Response Unit × DB :=
  match db.findOwned u pk with
  | none => (Response.notFound, db)
  | some a =>
    match AssetForm.clean sub with
    | Except.error msg => (Response.invalid msg, db)
    | Except.ok s =>
      let a2 := applySubmission a s
      let newAssets := db.assets.map
        (fun x => if x.owner = u ∧ x.id = pk then applySubmission x s else x)
      let db1 := { db with assets := newAssets }
      let db2 := files.foldl (AssetUpdateView.uploadOne u a2) db1
      let updateEntry := ActivityLog.log_action u LogAction.update a2
        (some "Updated asset")
      (Response.ok (), { db2 with logs := db2.logs ++ [updateEntry] })

/-- The logging half of `AssetDeleteView.form_valid`: one `delete` row,
snapshotting the asset's name/category, appended while the asset still
exists ("log deletion before deleting"). -/
def AssetDeleteView.logStep (db : DB) (u : Nat) (a : Asset) : DB :=
  let entry := ActivityLog.log_action u LogAction.delete a
    (some ("Deleted asset with value " ++ toString a.value))
  { db with logs := db.logs ++ [entry] }

/-- The removal half of `AssetDeleteView`: `self.object.delete()` removes
the asset row, and the `on_delete=CASCADE` of `AssetDocument.asset` removes
every document row keyed to it. -/
def AssetDeleteView.removeStep (db : DB) (pk : Nat) : DB :=
  { db with assets := db.assets.filter (fun x => decide (¬ x.id = pk)),
            documents := db.documents.filter (fun d => decide (¬ d.asset_id = pk)) }

/-- Embeds `AssetDeleteView` POST: 404 unless the asset is the requester's own,
then the log step followed by the removal step. -/
def AssetDeleteView.post (db : DB) (u pk : Nat) : Response Unit × DB :=
  match db.findOwned u pk with
  | none => (Response.notFound, db)
  | some a =>
    (Response.ok (), AssetDeleteView.removeStep (AssetDeleteView.logStep db u a) a.id)

/-! ### Document views (assets/views.py) -/

/-- What `download_document` puts on the wire: the stored bytes, the stored
MIME type as `Content-Type`, the original filename in the
`Content-Disposition`, and the stored size as `Content-Length`. -/
structure DownloadPayload where
  content : List Nat
  content_type : String
  filename : String
  content_length : Nat
deriving DecidableEq, Repr

/-- Embeds `download_document`: `get_object_or_404` on the document id (over all
documents), then `HttpResponseForbidden` unless the requester owns the
parent asset, else the payload.  No log row is written.  The inner 404 arm
covers a dangling `asset_id`, which the FK makes unreachable. -/
def download_document (db : DB) (u pk : Nat) : Response DownloadPayload :=
  match db.documents.find? (fun d => decide (d.id = pk)) with
  | none => Response.notFound
  | some d =>
    match db.assets.find? (fun a => decide (a.id = d.asset_id)) with
    | none => Response.notFound
    | some a =>
      if a.owner = u then
        Response.ok { content := d.file_data, content_type := d.file_type,
                      filename := d.file_name, content_length := d.file_size }
      else Response.forbidden

/-- Embeds `delete_document`: same resolution and ownership check; on success the
document row is removed and one `delete` log row is appended, snapshotting
the (still existing) parent asset's name/category. -/
def delete_document (db : DB) (u pk : Nat) : Response Unit × DB :=
  match db.documents.find? (fun d => decide (d.id = pk)) with
  | none => (Response.notFound, db)
  | some d =>
    match db.assets.find? (fun a => decide (a.id = d.asset_id)) with
    | none => (Response.notFound, db)
    | some a =>
      if a.owner = u then
        let db1 := { db with
          documents := db.documents.filter (fun x => decide (¬ x.id = pk)) }
        let entry := ActivityLog.log_action u LogAction.delete a
          (some ("Deleted document: " ++ d.file_name))
        (Response.ok (), { db1 with logs := db1.logs ++ [entry] })
      else (Response.forbidden, db)

/-! ### Aggregation (dashboard and chart API) -/

/-- SQL `Sum`: `NULL` over the empty set, the sum otherwise. -/
def sqlSum (l : List Int) : Option Int := if l.isEmpty then none else some l.sum

/-- The dashboard's total value:
`assets.aggregate(total=Coalesce(Sum('value'), Decimal('0')))` over the
owner-scoped queryset. -/
def DashboardView.total_value (db : DB) (u : Nat) : Int :=
  (sqlSum ((db.userAssets u).map (fun a => a.value))).getD 0

/-- Whether the user owns at least one asset of category `c` (so that the
SQL `GROUP BY category` emits a row for it). -/
def hasAssets (db : DB) (u : Nat) (c : Category) : Bool :=
  (db.userAssets u).any (fun a => decide (a.category = c))

/-- The per-category sum of `value` over the user's assets
(`annotate(total=Sum('value'))`). -/
def categoryTotal (db : DB) (u : Nat) (c : Category) : Int :=
  (((db.userAssets u).filter (fun a => decide (a.category = c))).map
    (fun a => a.value)).sum

/-- Embeds the breakdown query
`assets.values('category').annotate(total=Sum('value')).order_by('-total')`:
one (category, total) row per category the user has assets in — the
categories are drawn from the fixed `CATEGORY_CHOICES` domain — ordered by
descending total. -/
def category_breakdown (db : DB) (u : Nat) : List (Category × Int) :=
  List.insertionSort (fun p q : Category × Int => q.2 ≤ p.2)
    ((allCategories.filter (fun c => hasAssets db u c)).map
      (fun c => (c, categoryTotal db u c)))

/-- The label/value/color triples `chart_data_api` serializes, one per
breakdown row, labels via `category_labels.get` and colors via the fixed
palette. -/
def chartEntries (db : DB) (u : Nat) : List (String × Int × String) :=
  (category_breakdown db u).map (fun p => (p.1.label, p.2, p.1.color))

/-- Embeds `chart_data_api`: the JSON payload as its three parallel lists
`labels`/`values`/`colors`, comprehensions over the breakdown. -/
def chart_data_api (db : DB) (u : Nat) :
    List String × List Int × List String :=
  ((category_breakdown db u).map (fun p => p.1.label),
   (category_breakdown db u).map (fun p => p.2),
   (category_breakdown db u).map (fun p => p.1.color))

/-! ### The request alphabet -/

/-- One authenticated request to a mutating or reading endpoint, with its
actor and inputs. -/
inductive Op where
  | createA (u : Nat) (sub : Submission) (files : List UploadedFile)
  | updateA (u : Nat) (pk : Nat) (sub : Submission) (files : List UploadedFile)
  | deleteA (u : Nat) (pk : Nat)
  | viewA (u : Nat) (pk : Nat)
  | downloadD (u : Nat) (pk : Nat)
  | deleteD (u : Nat) (pk : Nat)
deriving Repr

/-- The database transition of one request (`download_document` reads
without mutating). -/
def step (db : DB) : Op → DB
  | Op.createA u sub files => (AssetCreateView.post db u sub files).2
  | Op.updateA u pk sub files => (AssetUpdateView.post db u pk sub files).2
  | Op.deleteA u pk => (AssetDeleteView.post db u pk).2
  | Op.viewA u pk => (AssetDetailView.get db u pk).2
  | Op.downloadD _ _ => db
  | Op.deleteD u pk => (delete_document db u pk).2

/-- Running a request trace from a database state. -/
def runOps (db : DB) (ops : List Op) : DB := ops.foldl step db

/-! ### Concrete fixtures used by witnesses and counterexamples -/

/-- A valid gold submission (no cross-field rule applies). -/
def exSubGold : Submission :=
  { name := "gold coin", category := Category.gold, value := 35050,
    start_date := 100, end_date := some 200,
    latitude := none, longitude := none }

/-- A lands submission with both coordinates present but latitude zero. -/
def exSubLandsZeroLat : Submission :=
  { name := "equator plot", category := Category.lands, value := 100000,
    start_date := 100, end_date := none,
    latitude := some 0, longitude := some 550000000 }

/-- A submission whose end date precedes its start date. -/
def exSubBadDates : Submission :=
  { exSubGold with end_date := some 50 }

/-- An upload whose extension is outside the allow-list. -/
def exFileExe : UploadedFile := { name := "virus.exe", content := [77, 90, 0] }

/-- An allowed upload. -/
def exFilePdf : UploadedFile := { name := "scan.pdf", content := [37, 80, 68, 70] }

/-- The asset row the gold submission creates for user 1 with pk 1. -/
def exAssetGold : Asset := Asset.fromSubmission 1 1 exSubGold

/-- A database holding user 1's gold asset and nothing else. -/
def exDBgold : DB :=
  { assets := [exAssetGold], documents := [], logs := [],
    nextAssetId := 2, nextDocId := 1 }

/-- The document row storing `exFilePdf` under asset 1 with pk 1. -/
def exDocPdf : AssetDocumentRow :=
  { id := 1, asset_id := 1, file_data := exFilePdf.content,
    file_name := "scan.pdf", file_type := "application/pdf",
    file_size := 4, name := "scan" }

/-- A database with user 1's asset, its stored document, and empty log. -/
def exDBfull : DB :=
  { assets := [exAssetGold], documents := [exDocPdf], logs := [],
    nextAssetId := 2, nextDocId := 2 }

/-- Two users: user 1 holds 100.00 and 250.50, user 2 holds 999.00. -/
def exDBmulti : DB :=
  { assets :=
      [{ id := 1, owner := 1, name := "fund a", category := Category.mutual_funds,
         value := 10000, start_date := 10, end_date := none,
         latitude := none, longitude := none },
       { id := 2, owner := 1, name := "gold bar", category := Category.gold,
         value := 25050, start_date := 20, end_date := none,
         latitude := none, longitude := none },
       { id := 3, owner := 2, name := "stock z", category := Category.stocks,
         value := 99900, start_date := 30, end_date := none,
         latitude := none, longitude := none }],
    documents := [], logs := [], nextAssetId := 4, nextDocId := 1 }

/-! ### Helper lemmas about the embedded operations -/

/-- Storing a batch of files (`create_from_file` folded over the upload
list) never touches the asset table. -/
theorem create_foldl_assets (files : List UploadedFile) (aid : Nat) (db : DB) :
    (files.foldl (fun d f => AssetDocument.create_from_file d aid f) db).assets
      = db.assets := by
  induction files generalizing db with
  | nil => rfl
  | cons f fs ih =>
    rw [List.foldl_cons, ih]
    simp [AssetDocument.create_from_file]

/-- Storing a batch of files never touches the activity log. -/
theorem create_foldl_logs (files : List UploadedFile) (aid : Nat) (db : DB) :
    (files.foldl (fun d f => AssetDocument.create_from_file d aid f) db).logs
      = db.logs := by
  induction files generalizing db with
  | nil => rfl
  | cons f fs ih =>
    rw [List.foldl_cons, ih]
    simp [AssetDocument.create_from_file]

/-- A validated `AssetForm.clean` returns its input and certifies the date
ordering. -/
theorem clean_ok (s t : Submission) (h : AssetForm.clean s = Except.ok t) :
    t = s ∧ (∀ e, s.end_date = some e → s.start_date ≤ e) := by
  unfold AssetForm.clean at h
  split at h
  · exact absurd h (by simp)
  · split at h
    · exact absurd h (by simp)
    · refine ⟨by injection h with h; exact h.symm, ?_⟩
      intro e he
      rename_i hcond _
      rw [he] at hcond
      simpa using of_not_not (by simpa using hcond)

/-! ### Claims -/

/-- C6.  The claim states that every file uploaded through asset create/edit
whose extension is outside the allow-list (or whose size exceeds the
maximum) is rejected with a descriptive error and not persisted.  The
validation (`AssetDocumentForm.clean_files`) does reject such a file — but
`AssetCreateView.form_valid` (and likewise `AssetUpdateView.form_valid`)
reads `request.FILES.getlist('files')` directly and never binds the
submitted files to `AssetDocumentForm`, so the validation never runs on a
real submission: the disallowed file `virus.exe` is stored as a document and
the request succeeds.  The code contradicts the evident purpose of its own
validation layer. -/
theorem C6_upload_validation_bypassed :
    AssetDocumentForm.clean_files [exFileExe]
        = Except.error (FileError.badExtension ".exe") ∧
    (AssetCreateView.post DB.empty 1 exSubGold [exFileExe]).1 = Response.ok () ∧
    ((AssetCreateView.post DB.empty 1 exSubGold [exFileExe]).2.documents.map
        (fun d => d.file_name)) = ["virus.exe"] :=
  ⟨rfl, by decide, by decide⟩

/-- C3.  Storing an uploaded file as a document of an asset and then
downloading that document (as the asset's owner, at the fresh document id)
returns content byte-identical to the uploaded bytes, the original filename,
the MIME type inferred from that filename — `application/octet-stream` when
`guess_type` infers none — and the recorded byte length. -/
theorem C3_document_roundtrip (db : DB) (a : Asset) (f : UploadedFile)
    (ha : db.assets.find? (fun x => decide (x.id = a.id)) = some a)
    (hfresh : ∀ d ∈ db.documents, d.id ≠ db.nextDocId) :
    download_document (AssetDocument.create_from_file db a.id f) a.owner db.nextDocId
      = Response.ok { content := f.content,
                      content_type := (guessType f.name).getD "application/octet-stream",
                      filename := f.name,
                      content_length := f.content.length } := by
  have h1 : db.documents.find? (fun d => decide (d.id = db.nextDocId)) = none :=
    List.find?_eq_none.mpr (fun d hd => by simpa using hfresh d hd)
  unfold download_document AssetDocument.create_from_file
  simp only [List.find?_append, h1, Option.none_or, List.find?_cons,
    decide_eq_true_eq]
  simp [ha]

/-- Witness for C3 at a concrete database: user 1's stored PDF downloads
back bit-exact with its name and inferred MIME type. -/
theorem C3_witness :
    download_document (AssetDocument.create_from_file exDBgold exAssetGold.id exFilePdf)
        exAssetGold.owner exDBgold.nextDocId
      = Response.ok { content := exFilePdf.content,
                      content_type := (guessType exFilePdf.name).getD "application/octet-stream",
                      filename := exFilePdf.name,
                      content_length := exFilePdf.content.length } :=
  C3_document_roundtrip exDBgold exAssetGold exFilePdf (by decide) (by simp [exDBgold])

/-- A lands submission with both coordinates present and nonzero. -/
def exSubLandsOk : Submission :=
  { name := "hill plot", category := Category.lands, value := 200000,
    start_date := 100, end_date := none,
    latitude := some 128000000, longitude := some 772000000 }

/-- C4, counterexample.  The claim says creation with category "lands"
succeeds whenever both latitude and longitude are present (input otherwise
valid).  Here both are present — latitude is the zero coordinate — yet
`AssetForm.clean` raises, because `if not latitude or not longitude` uses
Python truthiness and `Decimal('0')` is falsy: the request is rejected and
nothing is persisted. -/
theorem C4_counterexample :
    exSubLandsZeroLat.latitude = some 0 ∧
    exSubLandsZeroLat.longitude = some 550000000 ∧
    AssetCreateView.post DB.empty 1 exSubLandsZeroLat []
      = (Response.invalid "Latitude and Longitude are required for land assets.",
         DB.empty) :=
  ⟨rfl, rfl, by decide⟩

/-- C4, amended.  Creating an asset with category "lands" is rejected with a
validation error whenever latitude or longitude is missing or zero (the
Python-falsy cases), and succeeds (given otherwise valid input) whenever
both are present and nonzero — the new asset row is then persisted. -/
theorem C4_lands_coordinates (db : DB) (u : Nat) (s : Submission)
    (files : List UploadedFile)
    (hc : s.category = Category.lands)
    (hd : ∀ e, s.end_date = some e → s.start_date ≤ e) :
    ((decimalFalsy s.latitude = true ∨ decimalFalsy s.longitude = true) →
      AssetCreateView.post db u s files
        = (Response.invalid "Latitude and Longitude are required for land assets.",
           db)) ∧
    (decimalFalsy s.latitude = false → decimalFalsy s.longitude = false →
      (AssetCreateView.post db u s files).1 = Response.ok () ∧
      Asset.fromSubmission db.nextAssetId u s
        ∈ (AssetCreateView.post db u s files).2.assets) := by
  have hdate : (match s.end_date with
      | some e => decide (e < s.start_date)
      | none => false) = false := by
    cases hse : s.end_date with
    | none => rfl
    | some e => simpa using not_lt.mpr (hd e hse)
  constructor
  · intro hfalsy
    have hclean : AssetForm.clean s
        = Except.error "Latitude and Longitude are required for land assets." := by
      unfold AssetForm.clean
      rw [if_neg (by rw [hdate]; exact Bool.false_ne_true)]
      rw [if_pos ⟨hc, by rcases hfalsy with h | h <;> simp [h]⟩]
    simp [AssetCreateView.post, hclean]
  · intro hlat hlon
    have hclean : AssetForm.clean s = Except.ok s := by
      unfold AssetForm.clean
      rw [if_neg (by rw [hdate]; exact Bool.false_ne_true)]
      rw [if_neg (by rintro ⟨-, h | h⟩ <;> simp_all)]
    constructor
    · simp [AssetCreateView.post, hclean]
    · simp only [AssetCreateView.post, hclean]
      simp [create_foldl_assets]

/-- Witness for C4 as amended: a lands submission with both coordinates
present and nonzero is accepted and its asset row persisted. -/
theorem C4_witness :
    (AssetCreateView.post DB.empty 1 exSubLandsOk []).1 = Response.ok () ∧
    Asset.fromSubmission DB.empty.nextAssetId 1 exSubLandsOk
      ∈ (AssetCreateView.post DB.empty 1 exSubLandsOk []).2.assets :=
  (C4_lands_coordinates DB.empty 1 exSubLandsOk [] rfl
      (fun e he => by simp [exSubLandsOk] at he)).2 (by decide) (by decide)

/-- C1, counterexample.  The claim says the asset view endpoint returns a
permission-denied result for another user's asset.  Concretely: asset 1 is
owned by user 1; user 2 requesting it receives a not-found response (the
owner-filtered queryset makes `get_object_or_404` miss), which is not the
permission-denied (`HttpResponseForbidden`) result — only the document
endpoints return that. -/
theorem C1_counterexample :
    exAssetGold.owner = 1 ∧
    AssetDetailView.get exDBgold 2 1 = (Response.notFound, exDBgold) ∧
    (Response.notFound : Response (Asset × List AssetDocumentRow))
      ≠ Response.forbidden :=
  ⟨rfl, by decide, by decide⟩

/-- C1, amended.  For every authenticated user and every asset or document
owned by a different user: the asset view/edit/delete endpoints return a
not-found result, the document download/delete endpoints return a
permission-denied result, and in every case the data is not returned and the
database is unchanged. -/
theorem C1_ownership (db : DB) (u pk : Nat) :
    ((∀ a ∈ db.assets, a.id = pk → a.owner ≠ u) →
      AssetDetailView.get db u pk = (Response.notFound, db) ∧
      (∀ s files, AssetUpdateView.post db u pk s files = (Response.notFound, db)) ∧
      AssetDeleteView.post db u pk = (Response.notFound, db)) ∧
    (∀ d a, db.documents.find? (fun x => decide (x.id = pk)) = some d →
      db.assets.find? (fun x => decide (x.id = d.asset_id)) = some a →
      a.owner ≠ u →
      download_document db u pk = Response.forbidden ∧
      delete_document db u pk = (Response.forbidden, db)) := by
  constructor
  · intro h
    have hnone : db.findOwned u pk = none := by
      apply List.find?_eq_none.mpr
      intro a hmem
      have hm := List.mem_filter.mp hmem
      simp only [decide_eq_true_eq] at hm ⊢
      intro hid
      exact h a hm.1 hid hm.2
    refine ⟨?_, fun s files => ?_, ?_⟩
    · simp [AssetDetailView.get, hnone]
    · simp [AssetUpdateView.post, hnone]
    · simp [AssetDeleteView.post, hnone]
  · intro d a hd ha how
    constructor
    · simp [download_document, hd, ha, how]
    · simp [delete_document, hd, ha, how]

/-- Witness for C1 as amended: user 2 requesting user 1's asset gets 404,
and user 2 requesting user 1's document gets 403. -/
theorem C1_witness :
    AssetDetailView.get exDBfull 2 1 = (Response.notFound, exDBfull) ∧
    download_document exDBfull 2 1 = Response.forbidden :=
  ⟨((C1_ownership exDBfull 2 1).1 (by decide)).1,
   ((C1_ownership exDBfull 2 1).2 exDocPdf exAssetGold (by decide) (by decide)
      (by decide)).1⟩

/-- C7.  Deleting an asset (as its owner) succeeds, removes the asset row
and every document row keyed to it (the cascade), and appends exactly one
activity-log row of kind `delete` carrying the asset's name and category as
they were at deletion time.  The log row is written before the actual
removal: in the intermediate state after `form_valid`'s `log_action` and
before `super().form_valid` performs the delete, the log row is already
present while the asset still exists. -/
theorem C7_delete_cascade_and_log (db : DB) (u pk : Nat) (a : Asset)
    (ha : db.findOwned u pk = some a) :
    (AssetDeleteView.post db u pk).1 = Response.ok () ∧
    (AssetDeleteView.post db u pk).2.assets
      = db.assets.filter (fun x => decide (¬ x.id = a.id)) ∧
    (AssetDeleteView.post db u pk).2.documents
      = db.documents.filter (fun d => decide (¬ d.asset_id = a.id)) ∧
    (AssetDeleteView.post db u pk).2.logs
      = db.logs ++ [{ user := some u, action := LogAction.delete,
                      asset_name := a.name, asset_category := a.category.key,
                      details := some ("Deleted asset with value " ++ toString a.value) }] ∧
    (AssetDeleteView.post db u pk).2
      = AssetDeleteView.removeStep (AssetDeleteView.logStep db u a) a.id ∧
    a ∈ (AssetDeleteView.logStep db u a).assets ∧
    (AssetDeleteView.logStep db u a).logs
      = db.logs ++ [{ user := some u, action := LogAction.delete,
                      asset_name := a.name, asset_category := a.category.key,
                      details := some ("Deleted asset with value " ++ toString a.value) }] := by
  have hmem : a ∈ db.assets := (List.mem_filter.mp (List.mem_of_find?_eq_some ha)).1
  refine ⟨?_, ?_, ?_, ?_, ?_, ?_, ?_⟩ <;>
    simp [AssetDeleteView.post, ha, AssetDeleteView.removeStep,
      AssetDeleteView.logStep, ActivityLog.log_action, hmem]

/-- Witness for C7: deleting asset 1 succeeds and cascades to its stored
document. -/
theorem C7_witness :
    (AssetDeleteView.post exDBfull 1 1).1 = Response.ok () ∧
    (AssetDeleteView.post exDBfull 1 1).2.documents
      = exDBfull.documents.filter (fun d => decide (¬ d.asset_id = exAssetGold.id)) :=
  ⟨(C7_delete_cascade_and_log exDBfull 1 1 exAssetGold (by decide)).1,
   (C7_delete_cascade_and_log exDBfull 1 1 exAssetGold (by decide)).2.2.1⟩

/-- C10.  Deleting a single document (as the owner) appends exactly one
activity-log row whose action kind is `LogAction.delete` — the same
constructor `AssetDeleteView` logs for whole-asset deletion — snapshotting
the parent asset's name and category; the asset table is unchanged and the
parent asset still exists afterwards, so a `delete` log entry does not imply
that an asset was deleted. -/
theorem C10_document_delete_log (db : DB) (u pk : Nat) (d : AssetDocumentRow)
    (a : Asset)
    (hd : db.documents.find? (fun x => decide (x.id = pk)) = some d)
    (ha : db.assets.find? (fun x => decide (x.id = d.asset_id)) = some a)
    (how : a.owner = u) :
    (delete_document db u pk).1 = Response.ok () ∧
    (delete_document db u pk).2.logs
      = db.logs ++ [{ user := some u, action := LogAction.delete,
                      asset_name := a.name, asset_category := a.category.key,
                      details := some ("Deleted document: " ++ d.file_name) }] ∧
    (delete_document db u pk).2.assets = db.assets ∧
    a ∈ (delete_document db u pk).2.assets := by
  have hmem : a ∈ db.assets := List.mem_of_find?_eq_some ha
  refine ⟨?_, ?_, ?_, ?_⟩ <;>
    simp [delete_document, hd, ha, how, ActivityLog.log_action, hmem]

/-- Witness for C10: user 1 deletes their stored PDF; one `delete` log row
appears while asset 1 survives. -/
theorem C10_witness :
    (delete_document exDBfull 1 1).1 = Response.ok () ∧
    exAssetGold ∈ (delete_document exDBfull 1 1).2.assets :=
  ⟨(C10_document_delete_log exDBfull 1 1 exDocPdf exAssetGold (by decide)
      (by decide) (by decide)).1,
   (C10_document_delete_log exDBfull 1 1 exDocPdf exAssetGold (by decide)
      (by decide) (by decide)).2.2.2⟩

/-- Coalesce of the SQL sum is the plain list sum (zero when empty). -/
theorem sqlSum_getD (l : List Int) : (sqlSum l).getD 0 = l.sum := by
  cases l <;> simp [sqlSum]

/-- The dashboard total is the sum of `value` over the owner-scoped assets. -/
theorem total_value_eq_sum (db : DB) (u : Nat) :
    DashboardView.total_value db u
      = ((db.userAssets u).map (fun a => a.value)).sum := by
  unfold DashboardView.total_value
  exact sqlSum_getD _

/-- Updating rows matched as `owner = v` leaves the `owner = u` filter
untouched when `v ≠ u` (the update preserves the owner field). -/
theorem filter_map_update (l : List Asset) (u v pk : Nat) (s : Submission)
    (hv : v ≠ u) :
    ((l.map (fun x => if x.owner = v ∧ x.id = pk then applySubmission x s else x)).filter
        (fun a => decide (a.owner = u)))
      = l.filter (fun a => decide (a.owner = u)) := by
  induction l with
  | nil => rfl
  | cons x xs ih =>
    by_cases hx : x.owner = v ∧ x.id = pk
    · have h1 : decide (x.owner = u) = false := by simp [hx.1, hv]
      have h2 : decide ((applySubmission x s).owner = u) = false := by
        simp [applySubmission, hx.1, hv]
      simp [List.filter_cons, hx, h1, h2, ih, hv]
    · simp [List.filter_cons, hx, ih]

/-- The upload loop of `AssetUpdateView.form_valid` (store file, append one
`upload` log row, repeat) never touches the asset table. -/
theorem upload_foldl_assets (u : Nat) (a2 : Asset) (files : List UploadedFile)
    (db : DB) :
    (files.foldl (AssetUpdateView.uploadOne u a2) db).assets = db.assets := by
  induction files generalizing db with
  | nil => rfl
  | cons f fs ih =>
    rw [List.foldl_cons, ih]
    simp [AssetUpdateView.uploadOne, AssetDocument.create_from_file]

/-- The upload loop appends exactly one `upload` log row per file, in upload
order. -/
theorem upload_foldl_logs (u : Nat) (a2 : Asset) (files : List UploadedFile)
    (db : DB) :
    (files.foldl (AssetUpdateView.uploadOne u a2) db).logs
    = db.logs ++ files.map (fun f => ActivityLog.log_action u LogAction.upload a2
        (some ("Uploaded document: " ++ f.name))) := by
  induction files generalizing db with
  | nil => simp
  | cons f fs ih =>
    rw [List.foldl_cons, ih]
    simp [AssetUpdateView.uploadOne, AssetDocument.create_from_file]

/-- C2.  For every user, the dashboard total equals the sum of `value` over
exactly that user's assets, is zero when the user owns none, and is
unchanged by another user creating, editing, or deleting assets (those
operations only ever touch rows owned by their requester).  The id-Nodup
hypothesis states primary-key uniqueness, which the real database enforces. -/
theorem C2_dashboard_total (db : DB) (u : Nat)
    (hids : (db.assets.map (fun a => a.id)).Nodup) :
    DashboardView.total_value db u
        = ((db.userAssets u).map (fun a => a.value)).sum ∧
    (db.userAssets u = [] → DashboardView.total_value db u = 0) ∧
    (∀ v, v ≠ u →
      (∀ s files, DashboardView.total_value (step db (Op.createA v s files)) u
          = DashboardView.total_value db u) ∧
      (∀ pk s files, DashboardView.total_value (step db (Op.updateA v pk s files)) u
          = DashboardView.total_value db u) ∧
      (∀ pk, DashboardView.total_value (step db (Op.deleteA v pk)) u
          = DashboardView.total_value db u)) := by
  refine ⟨total_value_eq_sum db u, ?_, ?_⟩
  · intro h
    rw [total_value_eq_sum, h]
    rfl
  · intro v hv
    refine ⟨?_, ?_, ?_⟩
    · intro s files
      cases hcl : AssetForm.clean s with
      | error msg => simp [step, AssetCreateView.post, hcl]
      | ok t =>
        rw [total_value_eq_sum, total_value_eq_sum]
        simp only [step, AssetCreateView.post, hcl]
        simp [create_foldl_assets, DB.userAssets, List.filter_append,
          Asset.fromSubmission, hv]
    · intro pk s files
      cases hf : db.findOwned v pk with
      | none => simp [step, AssetUpdateView.post, hf]
      | some a =>
        cases hcl : AssetForm.clean s with
        | error msg => simp [step, AssetUpdateView.post, hf, hcl]
        | ok t =>
          rw [total_value_eq_sum, total_value_eq_sum]
          simp only [step, AssetUpdateView.post, hf, hcl, upload_foldl_assets,
            DB.userAssets]
          rw [filter_map_update db.assets u v pk t hv]
    · intro pk
      cases hf : db.findOwned v pk with
      | none => simp [step, AssetDeleteView.post, hf]
      | some a =>
        have hmf := List.mem_filter.mp (List.mem_of_find?_eq_some hf)
        have haowner : a.owner = v := by simpa using hmf.2
        rw [total_value_eq_sum, total_value_eq_sum]
        simp only [step, AssetDeleteView.post, hf, AssetDeleteView.removeStep,
          AssetDeleteView.logStep, DB.userAssets]
        rw [List.filter_comm]
        have heq : ((db.assets.filter (fun x => decide (x.owner = u))).filter
              (fun x => decide (¬ x.id = a.id)))
            = db.assets.filter (fun x => decide (x.owner = u)) := by
          apply List.filter_eq_self.mpr
          intro x hx
          have hxm := List.mem_filter.mp hx
          simp only [decide_eq_true_eq] at hxm ⊢
          intro hxa
          have hxe : x = a := List.inj_on_of_nodup_map hids hxm.1 hmf.1 hxa
          rw [hxe] at hxm
          exact hv (haowner ▸ hxm.2)
        rw [heq]

/-- Witness for C2: user 3 owns nothing in the two-user fixture, so their
dashboard total is zero. -/
theorem C2_witness : DashboardView.total_value exDBmulti 3 = 0 :=
  (C2_dashboard_total exDBmulti 3 (by decide)).2.1 (by decide)

/-- Date ordering of one asset row: any present end date is not before the
start date. -/
def datesValid (a : Asset) : Prop :=
  ∀ e, a.end_date = some e → a.start_date ≤ e

/-- Every request preserves the date ordering of all stored assets: the only
paths that write asset rows (create, update) go through `AssetForm.clean`. -/
theorem step_preserves_dates (db : DB) (op : Op)
    (h : ∀ a ∈ db.assets, datesValid a) :
    ∀ a ∈ (step db op).assets, datesValid a := by
  cases op with
  | createA u s files =>
    cases hcl : AssetForm.clean s with
    | error msg => simpa [step, AssetCreateView.post, hcl] using h
    | ok t =>
      obtain ⟨hts, hd⟩ := clean_ok s t hcl
      subst hts
      intro a hmem
      simp only [step, AssetCreateView.post, hcl, create_foldl_assets] at hmem
      rcases List.mem_append.mp hmem with hmem | hmem
      · exact h a hmem
      · have ha : a = Asset.fromSubmission db.nextAssetId u t := by simpa using hmem
        rw [ha]
        intro e he
        simp only [Asset.fromSubmission] at he ⊢
        exact hd e he
  | updateA u pk s files =>
    cases hf : db.findOwned u pk with
    | none => simpa [step, AssetUpdateView.post, hf] using h
    | some a0 =>
      cases hcl : AssetForm.clean s with
      | error msg => simpa [step, AssetUpdateView.post, hf, hcl] using h
      | ok t =>
        obtain ⟨hts, hd⟩ := clean_ok s t hcl
        subst hts
        intro a hmem
        simp only [step, AssetUpdateView.post, hf, hcl, upload_foldl_assets] at hmem
        rcases List.mem_map.mp hmem with ⟨x, hx, hxa⟩
        by_cases hcond : x.owner = u ∧ x.id = pk
        · rw [if_pos hcond] at hxa
          rw [← hxa]
          intro e he
          simp only [applySubmission] at he ⊢
          exact hd e he
        · rw [if_neg hcond] at hxa
          exact hxa ▸ h x hx
  | deleteA u pk =>
    cases hf : db.findOwned u pk with
    | none => simpa [step, AssetDeleteView.post, hf] using h
    | some a0 =>
      intro a hmem
      simp only [step, AssetDeleteView.post, hf, AssetDeleteView.removeStep,
        AssetDeleteView.logStep] at hmem
      exact h a (List.mem_filter.mp hmem).1
  | viewA u pk =>
    have hassets : (AssetDetailView.get db u pk).2.assets = db.assets := by
      unfold AssetDetailView.get
      split <;> rfl
    simpa [step, hassets] using h
  | downloadD u pk => exact h
  | deleteD u pk =>
    have hassets : (delete_document db u pk).2.assets = db.assets := by
      unfold delete_document
      split
      · rfl
      · split
        · rfl
        · split <;> rfl
    simpa [step, hassets] using h

/-- C5.  Every asset stored by any trace of requests from the empty database
has a null end date or an end date not before its start date; and any create
or edit submission with both dates present and the end date strictly before
the start date is rejected with the date validation error, persisting
nothing (an edit of an asset the requester does not own is a 404, likewise
persisting nothing). -/
theorem C5_date_invariant :
    (∀ ops, ∀ a ∈ (runOps DB.empty ops).assets,
        a.end_date = none ∨ ∃ e, a.end_date = some e ∧ a.start_date ≤ e) ∧
    (∀ db u s files e, s.end_date = some e → e < s.start_date →
        AssetCreateView.post db u s files
          = (Response.invalid "End date cannot be before start date.", db)) ∧
    (∀ db u pk s files e, s.end_date = some e → e < s.start_date →
        AssetUpdateView.post db u pk s files = (Response.notFound, db) ∨
        AssetUpdateView.post db u pk s files
          = (Response.invalid "End date cannot be before start date.", db)) := by
  have key : ∀ (ops : List Op) (db : DB), (∀ a ∈ db.assets, datesValid a) →
      ∀ a ∈ (runOps db ops).assets, datesValid a := by
    intro ops
    induction ops with
    | nil => intro db h; exact h
    | cons op rest ih => intro db h; exact ih _ (step_preserves_dates db op h)
  refine ⟨?_, ?_, ?_⟩
  · intro ops a ha
    have hv := key ops DB.empty (by simp [DB.empty]) a ha
    cases he : a.end_date with
    | none => exact Or.inl rfl
    | some e => exact Or.inr ⟨e, rfl, hv e he⟩
  · intro db u s files e he hlt
    have hclean : AssetForm.clean s
        = Except.error "End date cannot be before start date." := by
      simp [AssetForm.clean, he, hlt]
    simp [AssetCreateView.post, hclean]
  · intro db u pk s files e he hlt
    cases hf : db.findOwned u pk with
    | none => exact Or.inl (by simp [AssetUpdateView.post, hf])
    | some a =>
      have hclean : AssetForm.clean s
          = Except.error "End date cannot be before start date." := by
        simp [AssetForm.clean, he, hlt]
      exact Or.inr (by simp [AssetUpdateView.post, hf, hclean])

/-- Witness for C5: the submission with end date 50 before start date 100 is
rejected by the create view, leaving the database untouched. -/
theorem C5_witness :
    AssetCreateView.post DB.empty 1 exSubBadDates []
      = (Response.invalid "End date cannot be before start date.", DB.empty) :=
  C5_date_invariant.2.1 DB.empty 1 exSubBadDates [] 50 rfl (by decide)

/-- C8, counterexample.  The claim says every occurrence of each action kind
emits exactly one log row, and in particular each file uploaded during asset
creation yields one `upload` row.  Concretely: creating an asset with one
attached file succeeds but appends only the single `create` row — no
`upload` row; and a successful document download appends no row at all
(`download_document` never calls `log_action`). -/
theorem C8_counterexample :
    (AssetCreateView.post DB.empty 1 exSubGold [exFilePdf]).1 = Response.ok () ∧
    ((AssetCreateView.post DB.empty 1 exSubGold [exFilePdf]).2.logs.map
        (fun e => e.action)) = [LogAction.create] ∧
    download_document exDBfull 1 1
      = Response.ok { content := [37, 80, 68, 70],
                      content_type := "application/pdf",
                      filename := "scan.pdf", content_length := 4 } ∧
    (runOps exDBfull [Op.downloadD 1 1]).logs = exDBfull.logs :=
  ⟨by decide, by decide, by decide, rfl⟩

/-- C8, amended.  Asset view, create, update and delete and document delete
each append exactly one activity-log row per occurrence (of kind `view`,
`create`, `update`, `delete`, `delete` respectively); each file uploaded
during asset editing appends exactly one `upload` row; files uploaded during
asset creation append no row of their own (only the one `create` row for the
request), and document downloads append no row. -/
theorem C8_log_rows :
    (∀ db u s files t, AssetForm.clean s = Except.ok t →
      (step db (Op.createA u s files)).logs.map (fun e => e.action)
        = db.logs.map (fun e => e.action) ++ [LogAction.create]) ∧
    (∀ db u pk s files a t, db.findOwned u pk = some a →
      AssetForm.clean s = Except.ok t →
      (step db (Op.updateA u pk s files)).logs.map (fun e => e.action)
        = db.logs.map (fun e => e.action)
            ++ files.map (fun _ => LogAction.upload) ++ [LogAction.update]) ∧
    (∀ db u pk a, db.findOwned u pk = some a →
      (step db (Op.deleteA u pk)).logs.map (fun e => e.action)
        = db.logs.map (fun e => e.action) ++ [LogAction.delete]) ∧
    (∀ db u pk a, db.findOwned u pk = some a →
      (step db (Op.viewA u pk)).logs.map (fun e => e.action)
        = db.logs.map (fun e => e.action) ++ [LogAction.view]) ∧
    (∀ db u pk, (step db (Op.downloadD u pk)).logs = db.logs) ∧
    (∀ db u pk d a, db.documents.find? (fun x => decide (x.id = pk)) = some d →
      db.assets.find? (fun x => decide (x.id = d.asset_id)) = some a →
      a.owner = u →
      (step db (Op.deleteD u pk)).logs.map (fun e => e.action)
        = db.logs.map (fun e => e.action) ++ [LogAction.delete]) := by
  refine ⟨?_, ?_, ?_, ?_, ?_, ?_⟩
  · intro db u s files t hcl
    simp [step, AssetCreateView.post, hcl, create_foldl_logs,
      ActivityLog.log_action]
  · intro db u pk s files a t hf hcl
    simp [step, AssetUpdateView.post, hf, hcl, upload_foldl_logs,
      ActivityLog.log_action, List.map_append, List.map_map, Function.comp_def]
  · intro db u pk a hf
    simp [step, AssetDeleteView.post, hf, AssetDeleteView.logStep,
      AssetDeleteView.removeStep, ActivityLog.log_action]
  · intro db u pk a hf
    simp [step, AssetDetailView.get, hf, ActivityLog.log_action]
  · intro db u pk
    rfl
  · intro db u pk d a hd ha how
    simp [step, delete_document, hd, ha, how, ActivityLog.log_action]

/-- Witness for C8 as amended: editing asset 1 with one attached file
appends one `upload` row then one `update` row. -/
theorem C8_witness :
    (step exDBfull (Op.updateA 1 1 exSubGold [exFilePdf])).logs.map
        (fun e => e.action)
      = [LogAction.upload, LogAction.update] := by
  have h := C8_log_rows.2.1 exDBfull 1 1 exSubGold [exFilePdf] exAssetGold
    exSubGold (by decide) rfl
  simpa [exDBfull] using h

/-- Category display labels are pairwise distinct, so a label determines its
category. -/
theorem Category.label_inj : ∀ x y : Category,
    Category.label x = Category.label y → x = y := by
  intro x y h
  cases x <;> cases y <;> simp_all [Category.label]

/-- Every category is in the fixed `CATEGORY_CHOICES` list. -/
theorem mem_allCategories (c : Category) : c ∈ allCategories := by
  cases c <;> simp [allCategories]

/-- Counting one category in a filtered run over the (duplicate-free) fixed
category list gives one when the filter keeps it, zero otherwise. -/
theorem countP_filter_allCategories (q : Category → Bool) (c : Category) :
    ((allCategories.filter q).countP (fun x => decide (x = c)))
      = if q c then 1 else 0 := by
  rw [List.countP_filter]
  cases hq : q c <;> cases c <;> simp [allCategories, List.countP_cons, hq]

/-- C9.  For every user, the chart payload contains exactly one
label/value/color triple for each category in which the user owns at least
one asset — the value being the per-category sum of `value` and the color
the fixed palette entry — and no triple for a category in which the user
owns none; the serialized `labels`/`values`/`colors` lists are exactly the
projections of those triples. -/
theorem C9_chart_per_category (db : DB) (u : Nat) (c : Category) :
    (hasAssets db u c = true →
      (chartEntries db u).countP (fun t => decide (t.1 = c.label)) = 1 ∧
      (c.label, categoryTotal db u c, c.color) ∈ chartEntries db u) ∧
    (hasAssets db u c = false →
      (chartEntries db u).countP (fun t => decide (t.1 = c.label)) = 0) ∧
    chart_data_api db u
      = ((chartEntries db u).map (fun t => t.1),
         (chartEntries db u).map (fun t => t.2.1),
         (chartEntries db u).map (fun t => t.2.2)) := by
  have hperm := List.perm_insertionSort (fun p q : Category × Int => q.2 ≤ p.2)
      ((allCategories.filter (fun y => hasAssets db u y)).map
        (fun y => (y, categoryTotal db u y)))
  have hcnt : (chartEntries db u).countP (fun t => decide (t.1 = c.label))
      = if hasAssets db u c then 1 else 0 := by
    unfold chartEntries category_breakdown
    rw [List.countP_map, hperm.countP_eq, List.countP_map]
    have hcong : ∀ x ∈ allCategories.filter (fun y => hasAssets db u y),
        (decide (x.label = c.label)) = true ↔ (decide (x = c)) = true := by
      intro x hx
      simp only [decide_eq_true_eq]
      exact ⟨fun h => Category.label_inj x c h, fun h => by rw [h]⟩
    exact (List.countP_congr hcong).trans (countP_filter_allCategories _ c)
  refine ⟨fun h => ⟨?_, ?_⟩, fun h => ?_, ?_⟩
  · rw [hcnt, h]
    rfl
  · unfold chartEntries category_breakdown
    apply List.mem_map.mpr
    refine ⟨(c, categoryTotal db u c), ?_, rfl⟩
    apply hperm.mem_iff.mpr
    apply List.mem_map.mpr
    exact ⟨c, List.mem_filter.mpr ⟨mem_allCategories c, h⟩, rfl⟩
  · rw [hcnt, h]
    rfl
  · simp [chart_data_api, chartEntries, List.map_map]

/-- Witness for C9: user 1 holds gold, and the chart has exactly one gold
triple carrying the gold sum and palette color. -/
theorem C9_witness :
    (chartEntries exDBmulti 1).countP
        (fun t => decide (t.1 = Category.gold.label)) = 1 ∧
    (Category.gold.label, categoryTotal exDBmulti 1 Category.gold,
      Category.gold.color) ∈ chartEntries exDBmulti 1 :=
  (C9_chart_per_category exDBmulti 1 Category.gold).1 (by decide)
